import Mathlib

/-!
# MedScan extraction core — a shallow embedding

This file embeds the text-to-structured-record extraction engine of
`src/medscan/app.py` (the MedScan OCR web app) in Lean 4 and proves the
frozen specification claims about it.

Python strings are modelled as `List Char` (with `String` wrappers at the
top level), `re.search`/`re.findall` by a small backtracking regex engine
(`RE`, `mrun`, `searchIn`) whose alternation/greediness order mirrors
Python's leftmost-then-backtracking semantics, `int(...)` and `float(...)`
by explicit partial parsers (`pyInt`, `pyFloat`; `\d`, `\s`, `\w` and
case folding are modelled at ASCII level, which covers the OCR inputs the
program is written for), and absent values (`None`) by `Option`.
-/

set_option maxRecDepth 200000
set_option maxHeartbeats 2000000

namespace Medscan

/-- ASCII whitespace as Python's `str.strip` / `\s` sees it. -/
def isPySpace (c : Char) : Bool :=
  c = ' ' || c = '\t' || c = '\n' || c = '\r' || c = '\x0b' || c = '\x0c'

/-- Word characters for the regex `\b` boundary: `[A-Za-z0-9_]`. -/
def isWordChar (c : Char) : Bool :=
  c.isAlpha || c.isDigit || c = '_'

/-- `str.strip()` from the left. -/
def lstripWs (l : List Char) : List Char := l.dropWhile isPySpace

/-- `str.strip()` from the right. -/
def rstripWs (l : List Char) : List Char := (l.reverse.dropWhile isPySpace).reverse

/-- Python `str.strip()`: drop ASCII whitespace at both ends. -/
def pyStrip (l : List Char) : List Char := rstripWs (lstripWs l)

/-- Numeric value of a run of decimal digits. -/
def natOfDigits (l : List Char) : Nat :=
  l.foldl (fun a c => a * 10 + (c.toNat - '0'.toNat)) 0

/-- Python `int(s)` on a string: optional surrounding whitespace, optional
sign, then a non-empty run of decimal digits; `none` when `int` raises. -/
def pyInt (s : List Char) : Option Int :=
  let t := pyStrip s
  match t with
  | '+' :: rest => if rest ≠ [] ∧ rest.all Char.isDigit then some (natOfDigits rest) else none
  | '-' :: rest => if rest ≠ [] ∧ rest.all Char.isDigit then some (-(natOfDigits rest : Int)) else none
  | rest => if rest ≠ [] ∧ rest.all Char.isDigit then some (natOfDigits rest) else none

/-- Values Python's `float(s)` can produce. The finite case carries the
exact value of the decimal literal as `num · 10^exp` (numerator and
decimal exponent), which is exact for every literal. -/
inductive PyFloat where
  | fin (num : Int) (exp : Int)
  | inf
  | ninf
  | nan
  deriving DecidableEq

/-- `v >= t` for an integer threshold `t` (`nan` compares false):
`num·10^e ≥ t` decided in exact integer arithmetic. -/
def PyFloat.ge (v : PyFloat) (t : Int) : Bool :=
  match v with
  | .fin num e =>
    if 0 ≤ e then decide (t ≤ num * (10 : Int) ^ e.toNat)
    else decide (t * (10 : Int) ^ (-e).toNat ≤ num)
  | .inf => true
  | .ninf => false
  | .nan => false

/-- Case-insensitive literal match of `pat` at the head of `l`;
returns the rest of `l` on success. -/
def ciMatch (pat : List Char) (l : List Char) : Option (List Char) :=
  match pat, l with
  | [], rest => some rest
  | _ :: _, [] => none
  | p :: ps, c :: cs => if c.toLower = p.toLower then ciMatch ps cs else none

/-- Unsigned decimal-literal body of `float`: `digits[.digits][e[sign]digits]`
or `.digits[...]`; at least one digit overall. Returns the exact value as a
numerator and a decimal exponent. -/
def pyFloatBody (l : List Char) : Option (Int × Int) :=
  let intPart := l.takeWhile Char.isDigit
  let rest1 := l.dropWhile Char.isDigit
  let (fracPart, rest2) :=
    match rest1 with
    | '.' :: r => (r.takeWhile Char.isDigit, r.dropWhile Char.isDigit)
    | _ => ([], rest1)
  if intPart = [] ∧ fracPart = [] then none else
  let num : Int := natOfDigits (intPart ++ fracPart)
  let e0 : Int := -(fracPart.length : Int)
  match rest2 with
  | [] => some (num, e0)
  | e :: r =>
    if e.toLower = 'e' then
      match r with
      | '+' :: d => if d ≠ [] ∧ d.all Char.isDigit then some (num, e0 + natOfDigits d) else none
      | '-' :: d => if d ≠ [] ∧ d.all Char.isDigit then some (num, e0 - natOfDigits d) else none
      | d => if d ≠ [] ∧ d.all Char.isDigit then some (num, e0 + natOfDigits d) else none
    else none

/-- Python `float(s)`: optional whitespace and sign, then a decimal literal
or (case-insensitively) `inf`, `infinity` or `nan`; `none` when `float`
raises. -/
def pyFloat (s : List Char) : Option PyFloat :=
  let t := pyStrip s
  let core : List Char → Bool → Option PyFloat := fun body neg =>
    match ciMatch "infinity".data body with
    | some [] => some (if neg then .ninf else .inf)
    | _ =>
      match ciMatch "inf".data body with
      | some [] => some (if neg then .ninf else .inf)
      | _ =>
        match ciMatch "nan".data body with
        | some [] => some .nan
        | _ => (pyFloatBody body).map (fun p => .fin (if neg then -p.1 else p.1) p.2)
  match t with
  | '+' :: rest => core rest false
  | '-' :: rest => core rest true
  | rest => core rest false

/-!
## Regex engine

A small backtracking engine for the regular expressions of `app.py`.
Alternation prefers the left branch, `star`/`opt` are greedy, and search
tries start positions left to right — Python's `re.search` order for these
patterns. Literal characters compare case-insensitively, matching the
`re.IGNORECASE` flag used by every letter-bearing pattern in the source.
-/

/-- Regex abstract syntax: empty, (case-insensitive) literal, character
class, concatenation, alternation, greedy star, greedy option, numbered
capture group, and the `\b` word boundary. -/
inductive RE where
  | eps
  | lit (c : Char)
  | cls (p : Char → Bool)
  | seq (a b : RE)
  | alt (a b : RE)
  | star (a : RE)
  | opt (a : RE)
  | group (i : Nat) (a : RE)
  | wordB

/-- Captured groups: group index paired with the captured characters
(innermost-last write at the head; lookup takes the first hit). -/
abbrev Caps := List (Nat × List Char)

/-- `\b`: true when exactly one side of the current position is a word
character (`prev` is the character before the position, if any). -/
def atWordBoundary (prev : Option Char) (l : List Char) : Bool :=
  let before := match prev with | some c => isWordChar c | none => false
  let after := match l with | c :: _ => isWordChar c | [] => false
  before != after

/-- Backtracking matcher in continuation-passing style. `k` receives the
character before the remaining input, the remaining input and the captures;
the first continuation success (in backtracking order) is returned.
Recursion is structural on `fuel` (so the kernel can evaluate matches);
every call decrements it, and callers pass `reFuel`, far more than the
possible nesting depth for the patterns of this file (whose star bodies
all consume a character per iteration). -/
def mrun : Nat → RE → Option Char → List Char → Caps →
    (Option Char → List Char → Caps → Option (Option Char × List Char × Caps)) →
    Option (Option Char × List Char × Caps)
  | 0, _, _, _, _, _ => none
  | fuel + 1, re, prev, l, caps, k =>
    match re with
    | .eps => k prev l caps
    | .lit c =>
      match l with
      | x :: r => if x.toLower = c.toLower then k (some x) r caps else none
      | [] => none
    | .cls p =>
      match l with
      | x :: r => if p x then k (some x) r caps else none
      | [] => none
    | .seq a b => mrun fuel a prev l caps (fun p' l' c' => mrun fuel b p' l' c' k)
    | .alt a b => (mrun fuel a prev l caps k).orElse (fun _ => mrun fuel b prev l caps k)
    | .opt a => (mrun fuel a prev l caps k).orElse (fun _ => k prev l caps)
    | .star a =>
      (mrun fuel a prev l caps (fun p' l' c' => mrun fuel (.star a) p' l' c' k)).orElse
        (fun _ => k prev l caps)
    | .group i a =>
      mrun fuel a prev l caps
        (fun p' l' c' => k p' l' ((i, l.take (l.length - l'.length)) :: c'))
    | .wordB => if atWordBoundary prev l then k prev l caps else none

/-- Size of a pattern, for the fuel bound. -/
def reSize : RE → Nat
  | .eps => 1
  | .lit _ => 1
  | .cls _ => 1
  | .seq a b => reSize a + reSize b + 1
  | .alt a b => reSize a + reSize b + 1
  | .star a => reSize a + 1
  | .opt a => reSize a + 1
  | .group _ a => reSize a + 1
  | .wordB => 1

/-- Fuel ample for matching `re` against `l`. -/
def reFuel (re : RE) (l : List Char) : Nat := (l.length + 2) * (reSize re + 2) * 2

/-- Try to match `re` at successive start positions; returns the start
index, the character preceding the end of the match, the input remaining
after the match, and the captures of the leftmost match. -/
def searchIn (fuel : Nat) (re : RE) (prev : Option Char) (l : List Char) (idx : Nat) :
    Option (Nat × Option Char × List Char × Caps) :=
  match mrun fuel re prev l [] (fun p' l' c' => some (p', l', c')) with
  | some (p', l', caps) => some (idx, p', l', caps)
  | none =>
    match l with
    | [] => none
    | c :: r => searchIn fuel re (some c) r (idx + 1)

/-- `re.search(pattern, text)`: leftmost match over the whole input. -/
def reSearch (re : RE) (l : List Char) : Option (Nat × Option Char × List Char × Caps) :=
  searchIn (reFuel re l) re none l 0

/-- Value of capture group `g` of a match. -/
def capGet (caps : Caps) (g : Nat) : Option (List Char) :=
  match caps with
  | [] => none
  | (i, v) :: rest => if i = g then some v else capGet rest g

/-- `find(pattern, text, group)` from `app.py`: first match's capture group,
stripped of surrounding whitespace, or `None` when nothing matches. -/
def pyFind (re : RE) (l : List Char) (g : Nat) : Option (List Char) :=
  match reSearch re l with
  | some (_, _, _, caps) => (capGet caps g).map pyStrip
  | none => none

/-- One step of `re.findall` counting: count matches left to right, resuming
after each match (advancing one character past an empty match, as Python
does). `fuel2` bounds the number of matches. -/
def countFrom (fuel : Nat) (re : RE) (prev : Option Char) (l : List Char) (fuel2 : Nat) : Nat :=
  match fuel2 with
  | 0 => 0
  | f + 1 =>
    match searchIn fuel re prev l 0 with
    | none => 0
    | some (idx, p', l', _) =>
      if l.length = idx + l'.length then
        -- empty match: resume one character past it
        match l' with
        | [] => 1
        | c :: r => 1 + countFrom fuel re (some c) r f
      else 1 + countFrom fuel re p' l' f

/-- `len(re.findall(pattern, text))`. -/
def countMatches (re : RE) (l : List Char) : Nat :=
  countFrom (reFuel re l) re none l (l.length + 1)

/-!
## Pattern combinators and the transliterated patterns of `app.py`
-/

/-- A literal word, character by character (case-insensitive). -/
def rlits (s : String) : RE := s.data.foldr (fun c acc => .seq (.lit c) acc) .eps

/-- Concatenation of a pattern list. -/
def rcat (xs : List RE) : RE := xs.foldr .seq .eps

/-- `\s*` -/
def rws0 : RE := .star (.cls isPySpace)

/-- `\s+` -/
def rws1 : RE := .seq (.cls isPySpace) rws0

/-- `\d` -/
def rdig : RE := .cls Char.isDigit

/-- `a{n}` -/
def rexact : Nat → RE → RE
  | 0, _ => .eps
  | n + 1, a => .seq a (rexact n a)

/-- `a{0,n}`, greedy: `(a (a (…)?)?)?`. -/
def rupTo : Nat → RE → RE
  | 0, _ => .eps
  | n + 1, a => .opt (.seq a (rupTo n a))

/-- `a{lo,hi}`, greedy. -/
def rrep (lo hi : Nat) (a : RE) : RE := .seq (rexact lo a) (rupTo (hi - lo) a)

/-- `a{lo,}`, greedy. -/
def ratLeast (lo : Nat) (a : RE) : RE := .seq (rexact lo a) (.star a)

/-- `(?:Years?|Yrs?)` -/
def reYears : RE :=
  .alt (.seq (rlits "Year") (.opt (.lit 's'))) (.seq (rlits "Yr") (.opt (.lit 's')))

/-- `(\d{2,3}(?:\.\d)?)` — the numeric capture shared by the weight and
sugar patterns (group 1). -/
def reNum23Dec : RE := .group 1 (.seq (rrep 2 3 rdig) (.opt (.seq (.lit '.') rdig)))

/-- `Patient\s*Name\s*:` (the classifier's label probe). -/
def reLabel : RE := rcat [rlits "Patient", rws0, rlits "Name", rws0, .lit ':']

/-- `\d{2,3}[/|\\]\d{2,3}` (the classifier's BP-shaped token). -/
def reBpTok : RE :=
  rcat [rrep 2 3 rdig, .cls (fun c => c = '/' || c = '|' || c = '\\'), rrep 2 3 rdig]

/-- `(\d{2,3})[/|\\](\d{2,3})` (handwritten line BP token, with groups). -/
def reHwBp : RE :=
  rcat [.group 1 (rrep 2 3 rdig), .cls (fun c => c = '/' || c = '|' || c = '\\'),
        .group 2 (rrep 2 3 rdig)]

/-- `\b(\d{2,3})\b` (handwritten pulse). -/
def rePulse : RE := rcat [.wordB, .group 1 (rrep 2 3 rdig), .wordB]

/-- `[A-Za-z]{4,}` (handwritten notes). -/
def reNotes : RE := ratLeast 4 (.cls Char.isAlpha)

/-- `PATIENT\s*NAME\s*[:\-]\s*([A-Za-z][^\n\r]{1,60})` — under `IGNORECASE`
the second name variant `Patient\s*Name\s*[:\-]\s*(…)` is the same pattern. -/
def reName : RE :=
  rcat [rlits "PATIENT", rws0, rlits "NAME", rws0, .cls (fun c => c = ':' || c = '-'), rws0,
        .group 1 (.seq (.cls Char.isAlpha) (rrep 1 60 (.cls (fun c => c ≠ '\n' && c ≠ '\r'))))]

/-- `AGE\s*[:\-]\s*(\d{1,3})` -/
def reAge1 : RE :=
  rcat [rlits "AGE", rws0, .cls (fun c => c = ':' || c = '-'), rws0, .group 1 (rrep 1 3 rdig)]

/-- `Age\s*/\s*Gender[:\s]+(\d{1,3})` -/
def reAge2 : RE :=
  rcat [rlits "Age", rws0, .lit '/', rws0, rlits "Gender",
        ratLeast 1 (.cls (fun c => c = ':' || isPySpace c)), .group 1 (rrep 1 3 rdig)]

/-- `Age[^\d\n]{0,10}(\d{1,3})\s*(?:Years?|Yrs?)` -/
def reAge3 : RE :=
  rcat [rlits "Age", rrep 0 10 (.cls (fun c => !c.isDigit && c ≠ '\n')),
        .group 1 (rrep 1 3 rdig), rws0, reYears]

/-- `\b(\d{1,3})\s*(?:Years?|Yrs?)\s*/\s*(?:Male|Female|M\b|F\b)` -/
def reAge4 : RE :=
  rcat [.wordB, .group 1 (rrep 1 3 rdig), rws0, reYears, rws0, .lit '/', rws0,
        .alt (rlits "Male") (.alt (rlits "Female")
          (.alt (.seq (.lit 'M') .wordB) (.seq (.lit 'F') .wordB)))]

/-- `SEX\s*[:\-]\s*([A-Za-z]+)` -/
def reSex : RE :=
  rcat [rlits "SEX", rws0, .cls (fun c => c = ':' || c = '-'), rws0,
        .group 1 (ratLeast 1 (.cls Char.isAlpha))]

/-- `Gender\s*[:\-]\s*([A-Za-z]+)` -/
def reGender : RE :=
  rcat [rlits "Gender", rws0, .cls (fun c => c = ':' || c = '-'), rws0,
        .group 1 (ratLeast 1 (.cls Char.isAlpha))]

/-- `\d+\s*(?:Years?|Yrs?)?\s*/\s*(Male|Female)` -/
def reGenderSlash : RE :=
  rcat [ratLeast 1 rdig, rws0, .opt reYears, rws0, .lit '/', rws0,
        .group 1 (.alt (rlits "Male") (rlits "Female"))]

/-- `\b(Male|Female)\b` -/
def reGenderBare : RE :=
  rcat [.wordB, .group 1 (.alt (rlits "Male") (rlits "Female")), .wordB]

/-- `Height[:\s]+(\d{2,3})\s*cm` -/
def reHeight1 : RE :=
  rcat [rlits "Height", ratLeast 1 (.cls (fun c => c = ':' || isPySpace c)),
        .group 1 (rrep 2 3 rdig), rws0, rlits "cm"]

/-- `\bHt\.?\s*[:\-]?\s*(\d{2,3})\s*cm` -/
def reHeight2 : RE :=
  rcat [.wordB, rlits "Ht", .opt (.lit '.'), rws0, .opt (.cls (fun c => c = ':' || c = '-')),
        rws0, .group 1 (rrep 2 3 rdig), rws0, rlits "cm"]

/-- `Weight[:\s]+(\d{2,3}(?:\.\d)?)\s*kg` -/
def reWeight1 : RE :=
  rcat [rlits "Weight", ratLeast 1 (.cls (fun c => c = ':' || isPySpace c)),
        reNum23Dec, rws0, rlits "kg"]

/-- `\bWt\.?\s*[:\-]?\s*(\d{2,3}(?:\.\d)?)\s*kg` -/
def reWeight2 : RE :=
  rcat [.wordB, rlits "Wt", .opt (.lit '.'), rws0, .opt (.cls (fun c => c = ':' || c = '-')),
        rws0, reNum23Dec, rws0, rlits "kg"]

/-- `BMI[^\d\n]{0,20}(\d{1,2}\.\d+)` -/
def reBmi : RE :=
  rcat [rlits "BMI", rrep 0 20 (.cls (fun c => !c.isDigit && c ≠ '\n')),
        .group 1 (rcat [rrep 1 2 rdig, .lit '.', ratLeast 1 rdig])]

/-- `Blood\s+Pressure\s+\(Systolic\)\s+(\d{2,3})` -/
def reSys1 : RE :=
  rcat [rlits "Blood", rws1, rlits "Pressure", rws1, .lit '(', rlits "Systolic", .lit ')',
        rws1, .group 1 (rrep 2 3 rdig)]

/-- `Systolic\s*(?:BP|Blood\s*Pressure)?\s*[:\-]?\s*(\d{2,3})` -/
def reSys2 : RE :=
  rcat [rlits "Systolic", rws0, .opt (.alt (rlits "BP") (rcat [rlits "Blood", rws0, rlits "Pressure"])),
        rws0, .opt (.cls (fun c => c = ':' || c = '-')), rws0, .group 1 (rrep 2 3 rdig)]

/-- `Blood\s+Pressure\s+\(Diastolic\)\s+(\d{2,3})` -/
def reDia1 : RE :=
  rcat [rlits "Blood", rws1, rlits "Pressure", rws1, .lit '(', rlits "Diastolic", .lit ')',
        rws1, .group 1 (rrep 2 3 rdig)]

/-- `Diastolic\s*(?:BP|Blood\s*Pressure)?\s*[:\-]?\s*(\d{2,3})` -/
def reDia2 : RE :=
  rcat [rlits "Diastolic", rws0, .opt (.alt (rlits "BP") (rcat [rlits "Blood", rws0, rlits "Pressure"])),
        rws0, .opt (.cls (fun c => c = ':' || c = '-')), rws0, .group 1 (rrep 2 3 rdig)]

/-- `\b(\d{2,3})\s*/\s*(\d{2,3})\s*(?:mmHg|mm\s*Hg)?` (the BP slash fallback). -/
def reBpSlash : RE :=
  rcat [.wordB, .group 1 (rrep 2 3 rdig), rws0, .lit '/', rws0, .group 2 (rrep 2 3 rdig),
        rws0, .opt (.alt (rlits "mmHg") (rcat [rlits "mm", rws0, rlits "Hg"]))]

/-- `BLOOD\s+SUGAR\s*[\(\[]\s*F\s*[\)\]]\s*[:\-]?\s*(\d{2,3}(?:\.\d)?)` -/
def reFast1 : RE :=
  rcat [rlits "BLOOD", rws1, rlits "SUGAR", rws0, .cls (fun c => c = '(' || c = '['), rws0,
        .lit 'F', rws0, .cls (fun c => c = ')' || c = ']'), rws0,
        .opt (.cls (fun c => c = ':' || c = '-')), rws0, reNum23Dec]

/-- `(?:Fasting|FBS|F\.?B\.?S\.?)\s*(?:Blood\s*)?(?:Sugar|Glucose)\s*[:\-]?\s*(\d{2,3}(?:\.\d)?)` -/
def reFast2 : RE :=
  rcat [.alt (rlits "Fasting") (.alt (rlits "FBS")
          (rcat [.lit 'F', .opt (.lit '.'), .lit 'B', .opt (.lit '.'), .lit 'S', .opt (.lit '.')])),
        rws0, .opt (.seq (rlits "Blood") rws0), .alt (rlits "Sugar") (rlits "Glucose"),
        rws0, .opt (.cls (fun c => c = ':' || c = '-')), rws0, reNum23Dec]

/-- `Fasting\s+Blood\s+Glucose\s+(\d{2,3}(?:\.\d)?)` -/
def reFast3 : RE :=
  rcat [rlits "Fasting", rws1, rlits "Blood", rws1, rlits "Glucose", rws1, reNum23Dec]

/-- `Fasting\s+Sugar\s*[:\-]?\s*(\d{2,3}(?:\.\d)?)` -/
def reFast4 : RE :=
  rcat [rlits "Fasting", rws1, rlits "Sugar", rws0, .opt (.cls (fun c => c = ':' || c = '-')),
        rws0, reNum23Dec]

/-- `BLOOD\s+SUGAR\s*[\(\[]\s*PP\s*[\)\]]\s*[:\-]?\s*(\d{2,3}(?:\.\d)?)` -/
def rePP1 : RE :=
  rcat [rlits "BLOOD", rws1, rlits "SUGAR", rws0, .cls (fun c => c = '(' || c = '['), rws0,
        rlits "PP", rws0, .cls (fun c => c = ')' || c = ']'), rws0,
        .opt (.cls (fun c => c = ':' || c = '-')), rws0, reNum23Dec]

/-- `(?:Post\s*Prandial|PPBS|PP\.?B\.?S\.?)\s*(?:Blood\s*)?(?:Sugar|Glucose)?\s*[:\-]?\s*(\d{2,3}(?:\.\d)?)` -/
def rePP2 : RE :=
  rcat [.alt (rcat [rlits "Post", rws0, rlits "Prandial"]) (.alt (rlits "PPBS")
          (rcat [rlits "PP", .opt (.lit '.'), .lit 'B', .opt (.lit '.'), .lit 'S', .opt (.lit '.')])),
        rws0, .opt (.seq (rlits "Blood") rws0), .opt (.alt (rlits "Sugar") (rlits "Glucose")),
        rws0, .opt (.cls (fun c => c = ':' || c = '-')), rws0, reNum23Dec]

/-- `Post\s+Prandial\s+Glucose\s+(\d{2,3}(?:\.\d)?)` -/
def rePP3 : RE :=
  rcat [rlits "Post", rws1, rlits "Prandial", rws1, rlits "Glucose", rws1, reNum23Dec]

/-- `Post\s+Prandial\s+Sugar\s*[:\-]?\s*(\d{2,3}(?:\.\d)?)` -/
def rePP4 : RE :=
  rcat [rlits "Post", rws1, rlits "Prandial", rws1, rlits "Sugar", rws0,
        .opt (.cls (fun c => c = ':' || c = '-')), rws0, reNum23Dec]

/-!
## `clean_name` — the Name Sanitizer

`clean_name` truncates at the first match of
`\s+(?:DATE\s*[:=]|D\.O\.B|DOB\s*[:=]|ID\s*[:=]|AGE\s*[:=]|REF\.|SAMPLE|REPORT)`
(`re.split(...)[0]`), strips a trailing run of `[\s\d:./\-]`, and trims.
Since every alternative of the keyword group starts with a non-space
character, the `\s*` inside `DATE\s*[:=]` etc. and the `\s+` in front are
deterministic, so the pattern is transliterated as a direct scanner. -/

/-- After a keyword such as `DATE`: `\s*[:=]`. -/
def kwColonEq (l : List Char) : Bool :=
  match l.dropWhile isPySpace with
  | c :: _ => c = ':' || c = '='
  | [] => false

/-- One keyword alternative: the keyword itself (case-insensitive), and —
for the `colon` variants `DATE`, `DOB`, `ID`, `AGE` — a following
`\s*[:=]`. -/
def kwProbe (colon : Bool) (pat : String) (l : List Char) : Bool :=
  match ciMatch pat.data l with
  | some r => if colon then kwColonEq r else true
  | none => false

/-- The keyword alternation of the `clean_name` split pattern, tried at a
position just after whitespace (case-insensitive). -/
def noiseAltAt (l : List Char) : Bool :=
  kwProbe true "DATE" l || (kwProbe false "D.O.B" l || (kwProbe true "DOB" l ||
    (kwProbe true "ID" l || (kwProbe true "AGE" l || (kwProbe false "REF." l ||
      (kwProbe false "SAMPLE" l || kwProbe false "REPORT" l))))))

/-- Whether the split pattern `\s+(?:…)` matches at the head of `l`. -/
def noiseAt (l : List Char) : Bool :=
  match l with
  | [] => false
  | c :: rest => isPySpace c && noiseAltAt (rest.dropWhile isPySpace)

/-- `re.split(pattern, raw)[0]`: the prefix before the first match. -/
def preNoise : List Char → List Char
  | [] => []
  | c :: rest => if noiseAt (c :: rest) then [] else c :: preNoise rest

/-- The trailing-junk class `[\s\d:./\-]`. -/
def isJunk (c : Char) : Bool :=
  isPySpace c || c.isDigit || c = ':' || c = '.' || c = '/' || c = '-'

/-- `re.sub(r'[\s\d:./\-]+$', '', raw)`. -/
def rstripJunk (l : List Char) : List Char := (l.reverse.dropWhile isJunk).reverse

/-- `clean_name` from `app.py` on the character list. -/
def cleanNameL (l : List Char) : List Char :=
  if l.isEmpty then l else pyStrip (rstripJunk (preNoise l))

/-- Build a `String` back from a character list. -/
def strOf (l : List Char) : String := ⟨l⟩

/-- `clean_name` on strings. -/
def clean_name (s : String) : String := strOf (cleanNameL s.data)

/-!
## Clinical classifiers
-/

/-- Python truthiness of an optional string (`None` and `""` are falsy). -/
def pyFalsy (o : Option String) : Bool :=
  match o with
  | none => true
  | some s => s.data.isEmpty

/-- Python `A or B` on optional strings. -/
def pyOr (a b : Option String) : Option String := if pyFalsy a then b else a

/-- `int(x)` where `x` may be `None` (a `TypeError`, caught like a parse
failure by the callers). -/
def pyIntOpt (o : Option String) : Option Int :=
  match o with
  | some s => pyInt s.data
  | none => none

/-- `float(x)` where `x` may be `None`. -/
def pyFloatOpt (o : Option String) : Option PyFloat :=
  match o with
  | some s => pyFloat s.data
  | none => none

/-- `bp_status` from `app.py`. -/
def bp_status (s d : Option String) : String :=
  match pyIntOpt s, pyIntOpt d with
  | some sv, some dv =>
    if sv ≥ 140 ∨ dv ≥ 90 then "High"
    else if sv ≥ 130 ∨ dv ≥ 80 then "Elevated"
    else if sv < 90 ∨ dv < 60 then "Low"
    else "Normal"
  | _, _ => ""

/-- `sugar_status` from `app.py`: the `parts` list built by the two
independent `try` blocks, joined with `" | "`. -/
def sugar_status (f p : Option String) : String :=
  let parts :=
    (match pyFloatOpt f with
     | some fv =>
       [if fv.ge 126 then "Fasting: Diabetic"
        else if fv.ge 100 then "Fasting: Pre-Diabetic" else "Fasting: Normal"]
     | none => []) ++
    (match pyFloatOpt p with
     | some pv =>
       [if pv.ge 200 then "PP: Diabetic"
        else if pv.ge 140 then "PP: Pre-Diabetic" else "PP: Normal"]
     | none => [])
  String.intercalate " | " parts

/-!
## Document classifier
-/

/-- `is_handwritten_table` from `app.py`. -/
def is_handwritten_table (t : String) : Bool :=
  let has_label := (reSearch reLabel t.data).isSome
  let has_bp_slash := decide (3 ≤ countMatches reBpTok t.data)
  !has_label && has_bp_slash

/-- The two document classes routed by the `/scan` handler. -/
inductive Mode where
  | printed
  | handwritten
  deriving DecidableEq

/-- The routing decision of the `/scan` handler. -/
def classify (t : String) : Mode :=
  if is_handwritten_table t then .handwritten else .printed

/-!
## Handwritten-table extractor
-/

/-- The dictionary returned by `parse_handwritten_line`. -/
structure HwRow where
  name : String
  systolic : String
  diastolic : String
  pulse : String
  notes : String
  deriving DecidableEq

/-- Matched text (`m.group(0)`) of the leftmost match. -/
def reSearchMatch (re : RE) (l : List Char) : Option (List Char) :=
  match reSearch re l with
  | some (idx, _, rest, _) => some ((l.drop idx).take (l.length - idx - rest.length))
  | none => none

/-- `parse_handwritten_line` from `app.py`. -/
def parse_handwritten_line (line : List Char) : Option HwRow :=
  let l := pyStrip line
  if l.length < 5 then none else
  match reSearch reHwBp l with
  | none => none
  | some (start, _, after_bp, caps) =>
    let systolic := natOfDigits ((capGet caps 1).getD [])
    let diastolic := natOfDigits ((capGet caps 2).getD [])
    if ¬(60 ≤ systolic ∧ systolic ≤ 250 ∧ 40 ≤ diastolic ∧ diastolic ≤ 150) then none else
    let prRes := reSearch rePulse after_bp
    let pr : Option Nat := prRes.map (fun r => natOfDigits ((capGet r.2.2.2 1).getD []))
    -- name = re.sub(r'^[^A-Za-z]+', '', line[:bp.start()]).strip()
    let name0 := pyStrip ((l.take start).dropWhile (fun c => !c.isAlpha))
    -- name = re.sub(r'[^A-Za-z\s\.\-]+$', '', name).strip()
    let name1 := pyStrip ((name0.reverse.dropWhile
      (fun c => !(c.isAlpha || isPySpace c || c = '.' || c = '-'))).reverse)
    if name1.isEmpty || name1.length < 2 then none else
    let notes : String :=
      match prRes with
      | some (_, _, afterPr, _) =>
        match reSearchMatch reNotes (pyStrip afterPr) with
        | some m => strOf m
        | none => ""
      | none => ""
    some { name := strOf name1, systolic := toString systolic,
           diastolic := toString diastolic,
           pulse := match pr with | some n => if n = 0 then "" else toString n | none => "",
           notes := notes }

/-- A row of the handwritten path after `extract_handwritten` fills the
status, timestamp and the (empty-string) anthropometric/sugar columns. -/
structure VitalsRow where
  name : String
  systolic : String
  diastolic : String
  pulse : String
  notes : String
  bpStatus : String
  sugarStatus : String
  timestamp : String
  age : String
  gender : String
  height : String
  weight : String
  bmi : String
  fasting : String
  postPrandial : String
  deriving DecidableEq

/-- The per-row completion done inside the loop of `extract_handwritten`
(`now` is the stamped `datetime.now()` string). -/
def completeRow (now : String) (r : HwRow) : VitalsRow :=
  { name := r.name, systolic := r.systolic, diastolic := r.diastolic,
    pulse := r.pulse, notes := r.notes,
    bpStatus := bp_status (some r.systolic) (some r.diastolic),
    sugarStatus := "", timestamp := now,
    age := "", gender := "", height := "", weight := "", bmi := "",
    fasting := "", postPrandial := "" }

/-- `extract_handwritten` from `app.py`. -/
def extract_handwritten (now : String) (text : String) : List VitalsRow :=
  (text.data.splitOn '\n').filterMap (fun ln => (parse_handwritten_line ln).map (completeRow now))

/-!
## Printed-report extractor
-/

/-- The field dictionary built by `extract` (`None` = absent). -/
structure FieldSet where
  patientName : Option String
  age : Option String
  gender : Option String
  height : Option String
  weight : Option String
  bmi : Option String
  systolic : Option String
  diastolic : Option String
  fasting : Option String
  postPrandial : Option String
  deriving DecidableEq

/-- `find(pattern, text, group)` producing a `String`. -/
def findS (re : RE) (t : String) (g : Nat) : Option String :=
  (pyFind re t.data g).map strOf

/-- Python `str.title()` (ASCII): uppercase a letter that follows a
non-letter, lowercase the other letters. -/
def pyTitleL : List Char → Bool → List Char
  | [], _ => []
  | c :: r, prevAlpha =>
    (if c.isAlpha then (if prevAlpha then c.toLower else c.toUpper) else c) ::
      pyTitleL r c.isAlpha

/-- `str.title()` on strings. -/
def pyTitle (s : String) : String := strOf (pyTitleL s.data false)

/-- The primary (labelled) systolic chain of `extract`. -/
def primSys (t : String) : Option String := pyOr (findS reSys1 t 1) (findS reSys2 t 1)

/-- The primary (labelled) diastolic chain of `extract`. -/
def primDia (t : String) : Option String := pyOr (findS reDia1 t 1) (findS reDia2 t 1)

/-- The `NNN/NNN` slash-fallback search of `extract`: the two integer
captures of the leftmost `reBpSlash` match. -/
def bpSlashSearch (t : String) : Option (Nat × Nat) :=
  match reSearch reBpSlash t.data with
  | some (_, _, _, caps) =>
    some (natOfDigits ((capGet caps 1).getD []), natOfDigits ((capGet caps 2).getD []))
  | none => none

/-- The blood-pressure section of `extract`: labelled patterns first, then
the guarded slash fallback filling only falsy fields. -/
def extractBp (t : String) : Option String × Option String :=
  let sys0 := primSys t
  let dia0 := primDia t
  if pyFalsy sys0 || pyFalsy dia0 then
    match bpSlashSearch t with
    | some (s, d) =>
      if 80 ≤ s ∧ s ≤ 250 ∧ 40 ≤ d ∧ d ≤ 150 then
        (if pyFalsy sys0 then some (toString s) else sys0,
         if pyFalsy dia0 then some (toString d) else dia0)
      else (sys0, dia0)
    | none => (sys0, dia0)
  else (sys0, dia0)

/-- The raw gender capture chain of `extract`. -/
def rawGender (t : String) : Option String :=
  pyOr (findS reSex t 1) (pyOr (findS reGender t 1)
    (pyOr (findS reGenderSlash t 1) (findS reGenderBare t 1)))

/-- The gender normalisation of `extract` (`raw_gender.strip().upper()`
computed characterwise). -/
def normGender (t : String) : Option String :=
  match rawGender t with
  | some rg =>
    let g := strOf ((pyStrip rg.data).map Char.toUpper)
    some (if g = "M" || g = "MALE" then "Male"
          else if g = "F" || g = "FEMALE" then "Female"
          else pyTitle rg)
  | none => none

/-- `extract` from `app.py` (the printed-report extractor). -/
def extract (t : String) : FieldSet :=
  -- the two name patterns of the source coincide under re.IGNORECASE
  let raw_name := pyOr (findS reName t 1) (findS reName t 1)
  let bp := extractBp t
  { patientName := raw_name.map clean_name,
    age := pyOr (findS reAge1 t 1) (pyOr (findS reAge2 t 1)
      (pyOr (findS reAge3 t 1) (findS reAge4 t 1))),
    gender := normGender t,
    height := pyOr (findS reHeight1 t 1) (findS reHeight2 t 1),
    weight := pyOr (findS reWeight1 t 1) (findS reWeight2 t 1),
    bmi := findS reBmi t 1,
    systolic := bp.1,
    diastolic := bp.2,
    fasting := pyOr (findS reFast1 t 1) (pyOr (findS reFast2 t 1)
      (pyOr (findS reFast3 t 1) (findS reFast4 t 1))),
    postPrandial := pyOr (findS rePP1 t 1) (pyOr (findS rePP2 t 1)
      (pyOr (findS rePP3 t 1) (findS rePP4 t 1))) }

/-- The status fields stamped onto a printed extraction by the `/scan`
handler. -/
def printedBpStatus (t : String) : String :=
  bp_status (extract t).systolic (extract t).diastolic

/-- The sugar status stamped onto a printed extraction by the `/scan`
handler. -/
def printedSugarStatus (t : String) : String :=
  sugar_status (extract t).fasting (extract t).postPrandial

/-!
## Specification-side definitions

These follow the wording of the specification (§4.6 and §4.3), to be
compared with the code-side functions above.
-/

/-- The spec's BP classification rule, first matching rule wins:
≥140/≥90 High; ≥130/≥80 Elevated; <90/<60 Low; else Normal. -/
def bpClassifySpec (s d : Int) : String :=
  if 140 ≤ s ∨ 90 ≤ d then "High"
  else if 130 ≤ s ∨ 80 ≤ d then "Elevated"
  else if s < 90 ∨ d < 60 then "Low"
  else "Normal"

/-- The spec's fasting grading: ≥126 Diabetic, ≥100 Pre-Diabetic, else
Normal — emitted only when the fasting value parses. -/
def fastingPart (f : Option String) : Option String :=
  (pyFloatOpt f).map (fun v =>
    if v.ge 126 then "Fasting: Diabetic"
    else if v.ge 100 then "Fasting: Pre-Diabetic" else "Fasting: Normal")

/-- The spec's post-prandial grading: ≥200 Diabetic, ≥140 Pre-Diabetic,
else Normal — emitted only when the value parses. -/
def ppPart (p : Option String) : Option String :=
  (pyFloatOpt p).map (fun v =>
    if v.ge 200 then "PP: Diabetic"
    else if v.ge 140 then "PP: Pre-Diabetic" else "PP: Normal")

/-- The spec's join of the present parts with `" | "`, fasting first;
empty when neither part is present. -/
def joinParts : Option String → Option String → String
  | some a, some b => a ++ " | " ++ b
  | some a, none => a
  | none, some b => b
  | none, none => ""

/-- The previous-character context seen when matching at position `i` of
`l`, the outer context being `prev`. -/
def prevAt (prev : Option Char) (l : List Char) (i : Nat) : Option Char :=
  if i = 0 then prev else l.get? (i - 1)

/-- Spec side: pattern `re` matches at some start position of `l`. -/
def matchesSomewhere (re : RE) (l : List Char) : Prop :=
  ∃ i, i ≤ l.length ∧
    (mrun (reFuel re l) re (prevAt none l i) (List.drop i l) []
      (fun p' l' c' => some (p', l', c'))).isSome = true

/-- `l` contains no match of the sanitizer's split pattern at any
position. -/
def noNoise (l : List Char) : Prop := ∀ j, noiseAt (l.drop j) = false

/-- Bare keyword occurrence (the C9 claim's reading, without the `[:=]`
requirement of the code's `DATE`/`DOB`/`ID`/`AGE` alternatives). -/
def kwBareAt (l : List Char) : Bool :=
  (ciMatch "DATE".data l).isSome || (ciMatch "D.O.B".data l).isSome ||
  (ciMatch "DOB".data l).isSome || (ciMatch "ID".data l).isSome ||
  (ciMatch "AGE".data l).isSome || (ciMatch "REF.".data l).isSome ||
  (ciMatch "SAMPLE".data l).isSome || (ciMatch "REPORT".data l).isSome

/-- Some keyword of the sanitizer's list occurs preceded by whitespace. -/
def hasKwAfterWs : List Char → Bool
  | [] => false
  | c :: rest => (isPySpace c && kwBareAt rest) || hasKwAfterWs rest

/-- The input text of the C1 scenario claim. -/
def c1Text : String :=
  "PATIENT NAME : MD.SAZID AVI DATE : 10.05.202\nAGE : 45 SEX : M\nBLOOD SUGAR (F) : 178 Mg/dl\nBLOOD SUGAR (PP) : 234 Mg/dl"

/-- The input text of the C2 scenario claim. -/
def c2Text : String := "John Doe 150/95 72 stable\nJane Roe 118/76 68 fine"

/-- Witness input for C6: both primary labelled BP patterns match. -/
def c6Text : String := "Systolic BP: 145 Diastolic BP: 95"

/-- Witness input for C7. -/
def c7Text : String := "Amy Lee 130/85 70 okay"

/-- Witness input for C8. -/
def c8Text : String := "Bob Ray 120/80 66 calm\nBob Roy 121/81 67 calm\nBob Rey 122/82 68 calm"

/-- Witness input for C9's truncation behaviour. -/
def c9Text : String := "JOHN SMITH DATE : 77"

/-!
## Theorems
-/

/-- Helper: `sugar_status` computes the spec's independent two-part
grading joined with `" | "`. -/
theorem sugar_status_eq_joinParts (f p : Option String) :
    sugar_status f p = joinParts (fastingPart f) (ppPart p) := by
  unfold sugar_status joinParts fastingPart ppPart
  cases pyFloatOpt f <;> cases pyFloatOpt p <;> rfl

/-- C1 (counterexample): on the C1 scenario input the pipeline's Sugar
Status is "Fasting: Diabetic | PP: Diabetic" (178 ≥ 126 and 234 ≥ 200),
not the claimed "Fasting: Pre-Diabetic | PP: Pre-Diabetic". -/
theorem c1_sugar_status_counterexample :
    printedSugarStatus c1Text = "Fasting: Diabetic | PP: Diabetic" ∧
    printedSugarStatus c1Text ≠ "Fasting: Pre-Diabetic | PP: Pre-Diabetic" := by
  constructor
  · decide
  · decide

/-- C1 (amended): the C1 scenario input is classified as printed and
yields Patient Name "MD.SAZID AVI", Gender "Male", Fasting Sugar "178",
Post-Prandial Sugar "234", and Sugar Status
"Fasting: Diabetic | PP: Diabetic". -/
theorem c1_printed_scenario :
    classify c1Text = Mode.printed ∧
    (extract c1Text).patientName = some "MD.SAZID AVI" ∧
    (extract c1Text).gender = some "Male" ∧
    (extract c1Text).fasting = some "178" ∧
    (extract c1Text).postPrandial = some "234" ∧
    printedSugarStatus c1Text = "Fasting: Diabetic | PP: Diabetic" := by
  refine ⟨by decide, by decide, by decide, by decide, by decide, by decide⟩

/-- C2 (counterexample): the C2 scenario input contains only two
BP-slash-shaped tokens, below the classifier's threshold of 3, so
`is_handwritten_table` is `false` — the document is classified as
printed, not handwritten as claimed. -/
theorem c2_classifier_counterexample :
    is_handwritten_table c2Text = false ∧
    countMatches reBpTok c2Text.data = 2 := ⟨by decide, by decide⟩

/-- C2 (amended): the C2 scenario input is classified as printed (its two
BP tokens are fewer than the required 3); the handwritten extractor
applied to the same text nevertheless produces exactly two rows, in input
line order, with BP Status "High" then "Normal". -/
theorem c2_handwritten_rows (now : String) :
    classify c2Text = Mode.printed ∧
    extract_handwritten now c2Text =
      [⟨"John Doe", "150", "95", "72", "stable", "High", "", now,
        "", "", "", "", "", "", ""⟩,
       ⟨"Jane Roe", "118", "76", "68", "fine", "Normal", "", now,
        "", "", "", "", "", "", ""⟩] := by
  exact ⟨by decide, rfl⟩

/-- C4: `bp_status` parses both inputs as integers (empty string when
either fails) and then applies the spec's first-matching rule; 200/40 is
"High"; and the four bands are mutually exclusive and jointly exhaustive
over parseable integer pairs. -/
theorem c4_bp_status_correct :
    (∀ s d : String, bp_status (some s) (some d) =
      match pyInt s.data, pyInt d.data with
      | some sv, some dv => bpClassifySpec sv dv
      | _, _ => "") ∧
    bp_status (some "200") (some "40") = "High" ∧
    (∀ sv dv : Int,
      (bpClassifySpec sv dv = "High" ↔ (140 ≤ sv ∨ 90 ≤ dv)) ∧
      (bpClassifySpec sv dv = "Elevated" ↔
        (¬(140 ≤ sv ∨ 90 ≤ dv) ∧ (130 ≤ sv ∨ 80 ≤ dv))) ∧
      (bpClassifySpec sv dv = "Low" ↔
        (¬(140 ≤ sv ∨ 90 ≤ dv) ∧ ¬(130 ≤ sv ∨ 80 ≤ dv) ∧ (sv < 90 ∨ dv < 60))) ∧
      (bpClassifySpec sv dv = "Normal" ↔
        (¬(140 ≤ sv ∨ 90 ≤ dv) ∧ ¬(130 ≤ sv ∨ 80 ≤ dv) ∧ ¬(sv < 90 ∨ dv < 60)))) := by
  refine ⟨?_, by decide, ?_⟩
  · intro s d
    simp only [bp_status, pyIntOpt]
    cases hs : pyInt s.data <;> cases hd : pyInt d.data <;>
      simp [hs, hd, bpClassifySpec, ge_iff_le]
  · intro sv dv
    unfold bpClassifySpec
    split_ifs with h1 h2 h3 <;>
      refine ⟨?_, ?_, ?_, ?_⟩ <;> constructor <;> intro h <;> first | rfl | tauto

/-- C5: `sugar_status` parses the fasting and post-prandial inputs
independently, grades each by the spec thresholds, and joins the present
parts with `" | "` (fasting first, empty when neither parses); a parse
failure of one input never blocks the other. -/
theorem c5_sugar_status_correct :
    ∀ f p : Option String, sugar_status f p = joinParts (fastingPart f) (ppPart p) :=
  sugar_status_eq_joinParts

/-!
### The classifier (C3)
-/

/-- `searchIn` succeeds exactly when some start position admits a match. -/
theorem searchIn_isSome_iff (fuel : Nat) (re : RE) :
    ∀ (l : List Char) (prev : Option Char) (idx : Nat),
      (searchIn fuel re prev l idx).isSome = true ↔
        ∃ i, i ≤ l.length ∧
          (mrun fuel re (prevAt prev l i) (List.drop i l) []
            (fun p' l' c' => some (p', l', c'))).isSome = true := by
  intro l
  induction l with
  | nil =>
    intro prev idx
    simp only [searchIn]
    cases h : mrun fuel re prev [] [] (fun p' l' c' => some (p', l', c')) with
    | none =>
      simp only [h, Option.isSome_none]
      constructor
      · intro hFalse; cases hFalse
      · rintro ⟨i, hi, hm⟩
        have hi0 : i = 0 := Nat.le_zero.mp (by simpa using hi)
        subst hi0
        simp [prevAt, h] at hm
    | some v =>
      simp only [h]
      constructor
      · intro _
        exact ⟨0, by simp, by simp [prevAt, h]⟩
      · intro _; rfl
  | cons c r ih =>
    intro prev idx
    simp only [searchIn]
    cases h : mrun fuel re prev (c :: r) [] (fun p' l' c' => some (p', l', c')) with
    | some v =>
      simp only [h]
      constructor
      · intro _
        exact ⟨0, by simp, by simp [prevAt, h]⟩
      · intro _; rfl
    | none =>
      simp only [h]
      rw [ih (some c) (idx + 1)]
      constructor
      · rintro ⟨i, hi, hm⟩
        refine ⟨i + 1, by simpa using hi, ?_⟩
        have hprev : prevAt prev (c :: r) (i + 1) = prevAt (some c) r i := by
          unfold prevAt
          cases i with
          | zero => simp
          | succ j => simp
        rw [hprev]
        simpa using hm
      · rintro ⟨i, hi, hm⟩
        cases i with
        | zero =>
          simp [prevAt, h] at hm
        | succ j =>
          refine ⟨j, by simpa using hi, ?_⟩
          have hprev : prevAt prev (c :: r) (j + 1) = prevAt (some c) r j := by
            unfold prevAt
            cases j with
            | zero => simp
            | succ j' => simp
          rw [hprev] at hm
          simpa using hm

/-- `re.search` succeeds exactly when some start position admits a match. -/
theorem reSearch_isSome_iff (re : RE) (l : List Char) :
    (reSearch re l).isSome = true ↔ matchesSomewhere re l := by
  unfold reSearch matchesSomewhere
  exact searchIn_isSome_iff (reFuel re l) re l none 0

/-- C3: the classifier returns handwritten exactly when no
`Patient Name :` label pattern matches anywhere in the text and the
non-overlapping count of `\d{2,3}[/|\]\d{2,3}` BP-shaped tokens is at
least 3; in every other case it returns printed. -/
theorem c3_classifier_iff (t : String) :
    (is_handwritten_table t = true ↔
      (¬ matchesSomewhere reLabel t.data ∧ 3 ≤ countMatches reBpTok t.data)) ∧
    (classify t = Mode.printed ↔ ¬ is_handwritten_table t = true) := by
  constructor
  · unfold is_handwritten_table
    rw [← reSearch_isSome_iff]
    cases h : (reSearch reLabel t.data).isSome <;> simp [h]
  · unfold classify
    cases h : is_handwritten_table t <;> simp [h]

/-!
### The printed-report BP fallback (C6)
-/

/-- C6: the slash fallback of `extract` is consulted only when a primary
(labelled) systolic/diastolic value is missing, its values are accepted
only with systolic in [80,250] and diastolic in [40,150], and it fills
only the fields the primary patterns left absent — a primary match is
never overwritten. -/
theorem c6_bp_fallback (t : String) :
    ((pyFalsy (primSys t) = false ∧ pyFalsy (primDia t) = false) →
      (extract t).systolic = primSys t ∧ (extract t).diastolic = primDia t) ∧
    (∀ v, (extract t).systolic = some v → primSys t ≠ some v →
      pyFalsy (primSys t) = true ∧ ∃ s d, bpSlashSearch t = some (s, d) ∧
        80 ≤ s ∧ s ≤ 250 ∧ 40 ≤ d ∧ d ≤ 150 ∧ v = toString s) ∧
    (∀ v, (extract t).diastolic = some v → primDia t ≠ some v →
      pyFalsy (primDia t) = true ∧ ∃ s d, bpSlashSearch t = some (s, d) ∧
        80 ≤ s ∧ s ≤ 250 ∧ 40 ≤ d ∧ d ≤ 150 ∧ v = toString d) ∧
    (∀ v, primSys t = some v → pyFalsy (primSys t) = false →
      (extract t).systolic = some v) ∧
    (∀ v, primDia t = some v → pyFalsy (primDia t) = false →
      (extract t).diastolic = some v) := by
  have hsys : (extract t).systolic = (extractBp t).1 := rfl
  have hdia : (extract t).diastolic = (extractBp t).2 := rfl
  rw [hsys, hdia]
  unfold extractBp
  cases hb1 : pyFalsy (primSys t) <;> cases hb2 : pyFalsy (primDia t)
  -- both primaries truthy: the fallback is not consulted
  case false.false =>
    simp only [hb1, hb2, Bool.or_self, Bool.false_eq_true, reduceIte]
    exact ⟨fun _ => ⟨by simp, by simp⟩,
      fun v hv hne => absurd hv hne,
      fun v hv hne => absurd hv hne,
      fun v hv _ => hv, fun v hv _ => hv⟩
  all_goals
    simp only [hb1, hb2, Bool.or_false, Bool.false_or, Bool.or_true, Bool.true_or,
      Bool.or_self, Bool.true_eq_false, Bool.false_eq_true, reduceIte]
  all_goals
    cases hbp : bpSlashSearch t with
    | none =>
      dsimp only
      refine ⟨?_, fun v hv hne => absurd hv hne, fun v hv hne => absurd hv hne,
        ?_, ?_⟩ <;> first
          | (intro ha; simp_all)
          | (intro v hv hnf; first | exact hv | simp_all)
    | some sd =>
      obtain ⟨s, d⟩ := sd
      dsimp only
      by_cases hr : 80 ≤ s ∧ s ≤ 250 ∧ 40 ≤ d ∧ d ≤ 150
      case neg =>
        rw [if_neg hr]
        refine ⟨?_, fun v hv hne => absurd hv hne, fun v hv hne => absurd hv hne,
          ?_, ?_⟩ <;> first
            | (intro ha; simp_all)
            | (intro v hv hnf; first | exact hv | simp_all)
      case pos =>
        rw [if_pos hr]
        refine ⟨?_, ?_, ?_, ?_, ?_⟩
        · intro ha; simp_all
        · intro v hv hne
          first
            | exact absurd hv hne
            | exact ⟨trivial, s, d, rfl, hr.1, hr.2.1, hr.2.2.1, hr.2.2.2,
                (Option.some.inj hv).symm⟩
        · intro v hv hne
          first
            | exact absurd hv hne
            | exact ⟨trivial, s, d, rfl, hr.1, hr.2.1, hr.2.2.1, hr.2.2.2,
                (Option.some.inj hv).symm⟩
        · intro v hv hnf
          first | exact hv | simp_all
        · intro v hv hnf
          first | exact hv | simp_all

theorem c6_bp_fallback_witness :
    (extract c6Text).systolic = primSys c6Text ∧
    (extract c6Text).diastolic = primDia c6Text :=
  (c6_bp_fallback c6Text).1 ⟨by decide, by decide⟩

/-!
### Handwritten-row invariants (C7, C8)
-/

/-- The name guard of `parse_handwritten_line`: a name that passes
`if not name or len(name) < 2` is non-empty with length at least 2. -/
theorem nameGuard (X : List Char)
    (h : ¬ ((X.isEmpty || decide (X.length < 2)) = true)) :
    strOf X ≠ "" ∧ 2 ≤ (strOf X).length := by
  rw [Bool.or_eq_true, not_or] at h
  obtain ⟨h1, h2⟩ := h
  constructor
  · intro hh
    have hX : X = [] := by
      have := congrArg String.data hh
      simpa [strOf] using this
    simp [hX] at h1
  · have h2' : ¬ X.length < 2 := by simpa using h2
    have hx : (strOf X).length = X.length := rfl
    omega

/-- Any row produced by `parse_handwritten_line` has in-range integer BP
values and a name of length at least 2. -/
theorem parse_handwritten_line_sound (ln : List Char) (hr : HwRow)
    (h : parse_handwritten_line ln = some hr) :
    (∃ s : Nat, hr.systolic = toString s ∧ 60 ≤ s ∧ s ≤ 250) ∧
    (∃ d : Nat, hr.diastolic = toString d ∧ 40 ≤ d ∧ d ≤ 150) ∧
    hr.name ≠ "" ∧ 2 ≤ hr.name.length := by
  simp only [parse_handwritten_line] at h
  split at h
  · exact absurd h (by simp)
  · split at h
    · exact absurd h (by simp)
    · split at h
      · exact absurd h (by simp)
      · rename_i hbounds
        split at h
        · exact absurd h (by simp)
        · rename_i hname
          rw [← Option.some.inj h]
          push_neg at hbounds
          have hn := nameGuard _ hname
          exact ⟨⟨_, rfl, hbounds.1, hbounds.2.1⟩,
            ⟨_, rfl, hbounds.2.2.1, hbounds.2.2.2⟩, hn.1, hn.2⟩

/-- C7: every row emitted by the handwritten extractor has a systolic
value that is an integer in [60,250], a diastolic value that is an
integer in [40,150], and a non-empty patient name of length at least 2;
a line violating these produces no row. -/
theorem c7_handwritten_row_invariants (now text : String) (row : VitalsRow)
    (hm : row ∈ extract_handwritten now text) :
    (∃ s : Nat, row.systolic = toString s ∧ 60 ≤ s ∧ s ≤ 250) ∧
    (∃ d : Nat, row.diastolic = toString d ∧ 40 ≤ d ∧ d ≤ 150) ∧
    row.name ≠ "" ∧ 2 ≤ row.name.length := by
  unfold extract_handwritten at hm
  rw [List.mem_filterMap] at hm
  obtain ⟨ln, _, hln⟩ := hm
  cases hp : parse_handwritten_line ln with
  | none => rw [hp] at hln; cases hln
  | some hr =>
    rw [hp] at hln
    have hrow : row = completeRow now hr := (Option.some.inj hln).symm
    have hsound := parse_handwritten_line_sound ln hr hp
    subst hrow
    exact hsound

theorem c7_handwritten_row_invariants_witness :
    (∃ s : Nat, (⟨"Amy Lee", "130", "85", "70", "okay", "Elevated", "", "TS",
        "", "", "", "", "", "", ""⟩ : VitalsRow).systolic = toString s ∧
        60 ≤ s ∧ s ≤ 250) ∧
    (∃ d : Nat, (⟨"Amy Lee", "130", "85", "70", "okay", "Elevated", "", "TS",
        "", "", "", "", "", "", ""⟩ : VitalsRow).diastolic = toString d ∧
        40 ≤ d ∧ d ≤ 150) ∧
    (⟨"Amy Lee", "130", "85", "70", "okay", "Elevated", "", "TS",
        "", "", "", "", "", "", ""⟩ : VitalsRow).name ≠ "" ∧
    2 ≤ (⟨"Amy Lee", "130", "85", "70", "okay", "Elevated", "", "TS",
        "", "", "", "", "", "", ""⟩ : VitalsRow).name.length :=
  c7_handwritten_row_invariants "TS" c7Text _ (by decide)

/-- C8 (counterexample): a handwritten line with no pulse reading yields a
row whose Pulse and anthropometric/sugar fields are the empty string `""`,
not a distinct absent marker. -/
theorem c8_empty_string_counterexample :
    extract_handwritten "TS" "John Smith 150/95" =
      [⟨"John Smith", "150", "95", "", "", "High", "", "TS",
        "", "", "", "", "", "", ""⟩] := by decide

/-- C8 (amended): in printed `FieldSet`s absence is always the distinct
`None` marker — whenever a field's pattern chain (and, for the BP fields,
also the guarded slash fallback) yields nothing, the field is `None`,
never a default string — but in handwritten `VitalsRow`s an absent pulse
and the unpopulated anthropometric/sugar columns are coerced to the empty
string. -/
theorem c8_absence_representation (now text : String) :
    (∀ row ∈ extract_handwritten now text,
      row.age = "" ∧ row.gender = "" ∧ row.height = "" ∧ row.weight = "" ∧
      row.bmi = "" ∧ row.fasting = "" ∧ row.postPrandial = "" ∧
      row.sugarStatus = "") ∧
    (pyOr (findS reName text 1) (findS reName text 1) = none →
      (extract text).patientName = none) ∧
    (pyOr (findS reAge1 text 1) (pyOr (findS reAge2 text 1)
      (pyOr (findS reAge3 text 1) (findS reAge4 text 1))) = none →
      (extract text).age = none) ∧
    (rawGender text = none → (extract text).gender = none) ∧
    (pyOr (findS reHeight1 text 1) (findS reHeight2 text 1) = none →
      (extract text).height = none) ∧
    (pyOr (findS reWeight1 text 1) (findS reWeight2 text 1) = none →
      (extract text).weight = none) ∧
    (findS reBmi text 1 = none → (extract text).bmi = none) ∧
    (primSys text = none → bpSlashSearch text = none →
      (extract text).systolic = none) ∧
    (∀ s d, primSys text = none → bpSlashSearch text = some (s, d) →
      ¬(80 ≤ s ∧ s ≤ 250 ∧ 40 ≤ d ∧ d ≤ 150) → (extract text).systolic = none) ∧
    (primDia text = none → bpSlashSearch text = none →
      (extract text).diastolic = none) ∧
    (∀ s d, primDia text = none → bpSlashSearch text = some (s, d) →
      ¬(80 ≤ s ∧ s ≤ 250 ∧ 40 ≤ d ∧ d ≤ 150) → (extract text).diastolic = none) ∧
    (pyOr (findS reFast1 text 1) (pyOr (findS reFast2 text 1)
      (pyOr (findS reFast3 text 1) (findS reFast4 text 1))) = none →
      (extract text).fasting = none) ∧
    (pyOr (findS rePP1 text 1) (pyOr (findS rePP2 text 1)
      (pyOr (findS rePP3 text 1) (findS rePP4 text 1))) = none →
      (extract text).postPrandial = none) := by
  have hsys : (extract text).systolic = (extractBp text).1 := rfl
  have hdia : (extract text).diastolic = (extractBp text).2 := rfl
  refine ⟨?_, ?_, fun h => h, ?_, fun h => h, fun h => h, fun h => h,
    ?_, ?_, ?_, ?_, fun h => h, fun h => h⟩
  · intro row hm
    unfold extract_handwritten at hm
    rw [List.mem_filterMap] at hm
    obtain ⟨ln, _, hln⟩ := hm
    cases hp : parse_handwritten_line ln with
    | none => rw [hp] at hln; cases hln
    | some hr =>
      rw [hp] at hln
      have hrow : row = completeRow now hr := (Option.some.inj hln).symm
      subst hrow
      exact ⟨rfl, rfl, rfl, rfl, rfl, rfl, rfl, rfl⟩
  · intro h
    have hpn : (extract text).patientName =
        (pyOr (findS reName text 1) (findS reName text 1)).map clean_name := rfl
    rw [hpn, h]
    rfl
  · intro h
    have hg : (extract text).gender = normGender text := rfl
    rw [hg]
    unfold normGender
    rw [h]
  · intro h1 h2
    rw [hsys]
    unfold extractBp
    rw [h1, h2]
    simp [pyFalsy]
  · intro s d h1 h2 hr
    rw [hsys]
    unfold extractBp
    rw [h1, h2]
    simp only [show pyFalsy none = true from rfl, Bool.true_or, reduceIte]
    rw [if_neg hr]
  · intro h1 h2
    rw [hdia]
    unfold extractBp
    rw [h1, h2]
    simp [pyFalsy]
  · intro s d h1 h2 hr
    rw [hdia]
    unfold extractBp
    rw [h1, h2]
    simp only [show pyFalsy none = true from rfl, Bool.or_true, reduceIte]
    rw [if_neg hr]

theorem c8_absence_representation_witness :
    ((⟨"Bob Ray", "120", "80", "66", "calm", "Elevated", "", "TS",
        "", "", "", "", "", "", ""⟩ : VitalsRow).age = "" ∧
     (⟨"Bob Ray", "120", "80", "66", "calm", "Elevated", "", "TS",
        "", "", "", "", "", "", ""⟩ : VitalsRow).gender = "" ∧
     (⟨"Bob Ray", "120", "80", "66", "calm", "Elevated", "", "TS",
        "", "", "", "", "", "", ""⟩ : VitalsRow).height = "" ∧
     (⟨"Bob Ray", "120", "80", "66", "calm", "Elevated", "", "TS",
        "", "", "", "", "", "", ""⟩ : VitalsRow).weight = "" ∧
     (⟨"Bob Ray", "120", "80", "66", "calm", "Elevated", "", "TS",
        "", "", "", "", "", "", ""⟩ : VitalsRow).bmi = "" ∧
     (⟨"Bob Ray", "120", "80", "66", "calm", "Elevated", "", "TS",
        "", "", "", "", "", "", ""⟩ : VitalsRow).fasting = "" ∧
     (⟨"Bob Ray", "120", "80", "66", "calm", "Elevated", "", "TS",
        "", "", "", "", "", "", ""⟩ : VitalsRow).postPrandial = "" ∧
     (⟨"Bob Ray", "120", "80", "66", "calm", "Elevated", "", "TS",
        "", "", "", "", "", "", ""⟩ : VitalsRow).sugarStatus = "") ∧
    (extract "no fields here").patientName = none ∧
    (extract "no fields here").age = none ∧
    (extract "no fields here").gender = none ∧
    (extract "no fields here").height = none ∧
    (extract "no fields here").weight = none ∧
    (extract "no fields here").bmi = none ∧
    (extract "no fields here").systolic = none ∧
    (extract "BP 300/80").systolic = none ∧
    (extract "no fields here").diastolic = none ∧
    (extract "BP 300/80").diastolic = none ∧
    (extract "no fields here").fasting = none ∧
    (extract "no fields here").postPrandial = none := by
  obtain ⟨_, h1, h2, h3, h4, h5, h6, h7, _, h9, _, h11, h12⟩ :=
    c8_absence_representation "TS" "no fields here"
  obtain ⟨_, _, _, _, _, _, _, _, hs, _, hd, _, _⟩ :=
    c8_absence_representation "TS" "BP 300/80"
  exact ⟨(c8_absence_representation "TS" c8Text).1 _ (by decide),
    h1 (by decide), h2 (by decide), h3 (by decide), h4 (by decide),
    h5 (by decide), h6 (by decide), h7 (by decide) (by decide),
    hs 300 80 (by decide) (by decide) (by decide),
    h9 (by decide) (by decide),
    hd 300 80 (by decide) (by decide) (by decide),
    h11 (by decide), h12 (by decide)⟩

/-!
### The Name Sanitizer (C9, C10)

The key facts: a match of the split pattern survives appending characters
on the right (`noiseAt_append`), the prefix kept by `preNoise` contains no
match, and the post-processing (`rstripJunk`, `pyStrip`) of that prefix is
a fixed point of the whole sanitizer.
-/

/-- Extending the input to the right preserves a `ciMatch` hit. -/
theorem ciMatch_append (pat : List Char) :
    ∀ l t r : List Char, ciMatch pat l = some r → ciMatch pat (l ++ t) = some (r ++ t) := by
  induction pat with
  | nil =>
    intro l t r h
    rw [show ciMatch [] l = some l from rfl] at h
    rw [show ciMatch [] (l ++ t) = some (l ++ t) from rfl, Option.some.inj h]
  | cons p ps ih =>
    intro l t r h
    cases l with
    | nil => exact absurd h (by simp [ciMatch])
    | cons c cs =>
      rw [List.cons_append]
      rw [show ciMatch (p :: ps) (c :: cs) =
        (if c.toLower = p.toLower then ciMatch ps cs else none) from rfl] at h
      rw [show ciMatch (p :: ps) (c :: (cs ++ t)) =
        (if c.toLower = p.toLower then ciMatch ps (cs ++ t) else none) from rfl]
      split at h
      · rw [if_pos (by assumption)]
        exact ih cs t r h
      · exact absurd h (by simp)

/-- `dropWhile` commutes with appending when its result is non-empty. -/
theorem dropWhile_append_cons (p : Char → Bool) (c : Char) :
    ∀ l cs t : List Char, l.dropWhile p = c :: cs →
      (l ++ t).dropWhile p = c :: (cs ++ t) := by
  intro l
  induction l with
  | nil => intro cs t h; cases h
  | cons a as ih =>
    intro cs t h
    rw [List.dropWhile_cons] at h
    rw [List.cons_append, List.dropWhile_cons]
    split at h
    · rw [if_pos (by assumption)]
      exact ih cs t h
    · rw [if_neg (by assumption)]
      cases h
      rfl

/-- The head of a non-empty `dropWhile` result fails the predicate. -/
theorem dropWhile_head_false (p : Char → Bool) :
    ∀ (l : List Char) (c : Char) (cs : List Char),
      l.dropWhile p = c :: cs → p c = false := by
  intro l
  induction l with
  | nil => intro c cs h; cases h
  | cons a as ih =>
    intro c cs h
    rw [List.dropWhile_cons] at h
    split at h
    · exact ih c cs h
    · rename_i hneg
      cases h
      exact Bool.eq_false_iff.mpr hneg

/-- Right extension preserves the `\s*[:=]` check. -/
theorem kwColonEq_append (r t : List Char) (h : kwColonEq r = true) :
    kwColonEq (r ++ t) = true := by
  unfold kwColonEq at h ⊢
  cases hd : r.dropWhile isPySpace with
  | nil => rw [hd] at h; cases h
  | cons c cs =>
    rw [hd] at h
    rw [dropWhile_append_cons isPySpace c r cs t hd]
    exact h

/-- Right extension preserves a keyword probe. -/
theorem kwProbe_append (b : Bool) (pat : String) (l t : List Char)
    (h : kwProbe b pat l = true) : kwProbe b pat (l ++ t) = true := by
  unfold kwProbe at h ⊢
  cases hc : ciMatch pat.data l with
  | none => rw [hc] at h; cases h
  | some r =>
    rw [hc] at h
    rw [ciMatch_append pat.data l t r hc]
    cases b
    · simp
    · simp only [if_pos rfl] at h ⊢
      exact kwColonEq_append r t h

/-- Right extension preserves the keyword alternation. -/
theorem noiseAltAt_append (l t : List Char) (h : noiseAltAt l = true) :
    noiseAltAt (l ++ t) = true := by
  unfold noiseAltAt at h ⊢
  simp only [Bool.or_eq_true] at h ⊢
  rcases h with h | h | h | h | h | h | h | h
  · exact Or.inl (kwProbe_append _ _ _ _ h)
  · exact Or.inr (Or.inl (kwProbe_append _ _ _ _ h))
  · exact Or.inr (Or.inr (Or.inl (kwProbe_append _ _ _ _ h)))
  · exact Or.inr (Or.inr (Or.inr (Or.inl (kwProbe_append _ _ _ _ h))))
  · exact Or.inr (Or.inr (Or.inr (Or.inr (Or.inl (kwProbe_append _ _ _ _ h)))))
  · exact Or.inr (Or.inr (Or.inr (Or.inr (Or.inr (Or.inl (kwProbe_append _ _ _ _ h))))))
  · exact Or.inr (Or.inr (Or.inr (Or.inr (Or.inr (Or.inr
      (Or.inl (kwProbe_append _ _ _ _ h)))))))
  · exact Or.inr (Or.inr (Or.inr (Or.inr (Or.inr (Or.inr
      (Or.inr (kwProbe_append _ _ _ _ h)))))))

theorem noiseAltAt_nil : noiseAltAt [] = false := rfl

theorem noiseAt_nil : noiseAt [] = false := rfl

/-- Right extension preserves a split-pattern match. -/
theorem noiseAt_append (l t : List Char) (h : noiseAt l = true) :
    noiseAt (l ++ t) = true := by
  cases l with
  | nil => rw [noiseAt_nil] at h; cases h
  | cons c rest =>
    rw [List.cons_append]
    simp only [noiseAt, Bool.and_eq_true] at h ⊢
    refine ⟨h.1, ?_⟩
    have h2 := h.2
    cases hd : rest.dropWhile isPySpace with
    | nil => rw [hd, noiseAltAt_nil] at h2; cases h2
    | cons d ds =>
      rw [hd] at h2
      rw [dropWhile_append_cons isPySpace d rest ds t hd]
      exact noiseAltAt_append _ t h2

/-- `preNoise l` is an initial segment of `l`. -/
theorem preNoise_isPre (l : List Char) : ∃ t, preNoise l ++ t = l := by
  induction l with
  | nil => exact ⟨[], rfl⟩
  | cons c r ih =>
    unfold preNoise
    split
    · exact ⟨c :: r, rfl⟩
    · obtain ⟨t, ht⟩ := ih
      exact ⟨t, by rw [List.cons_append, ht]⟩

/-- No position inside the kept prefix starts a split-pattern match. -/
theorem preNoise_spec (l : List Char) :
    ∀ j, j < (preNoise l).length → noiseAt (l.drop j) = false := by
  induction l with
  | nil => intro j h; simp [preNoise] at h
  | cons c r ih =>
    intro j hj
    unfold preNoise at hj
    split at hj
    · simp at hj
    · rename_i hn
      cases j with
      | zero =>
        simp only [List.drop_zero]
        exact Bool.eq_false_iff.mpr hn
      | succ i =>
        simpa using ih i (by simpa using hj)

/-- The kept prefix contains no match anywhere. -/
theorem noNoise_preNoise (l : List Char) : noNoise (preNoise l) := by
  intro j
  by_cases hj : j < (preNoise l).length
  · obtain ⟨t, ht⟩ := preNoise_isPre l
    rw [Bool.eq_false_iff]
    intro hcontra
    have hd : l.drop j = (preNoise l).drop j ++ t := by
      have hd0 : (preNoise l ++ t).drop j = (preNoise l).drop j ++ t :=
        List.drop_append_of_le_length (Nat.le_of_lt hj)
      rw [ht] at hd0
      exact hd0
    have hx : noiseAt (l.drop j) = true := by
      rw [hd]
      exact noiseAt_append _ _ hcontra
    rw [preNoise_spec l j hj] at hx
    cases hx
  · rw [List.drop_eq_nil_of_le (Nat.le_of_not_lt hj)]
    exact noiseAt_nil

/-- An infix of a match-free list is match-free. -/
theorem noNoise_infix (u v t : List Char) (h : noNoise (u ++ (v ++ t))) : noNoise v := by
  intro j
  by_cases hj : j < v.length
  · rw [Bool.eq_false_iff]
    intro hcontra
    have h1 : noiseAt (v.drop j ++ t) = true := noiseAt_append _ _ hcontra
    have h2 : (u ++ (v ++ t)).drop (u.length + j) = v.drop j ++ t := by
      rw [List.drop_append]
      exact List.drop_append_of_le_length (Nat.le_of_lt hj)
    have h3 := h (u.length + j)
    rw [h2, h1] at h3
    cases h3
  · rw [List.drop_eq_nil_of_le (Nat.le_of_not_lt hj)]
    exact noiseAt_nil

/-- On a match-free list `preNoise` keeps everything. -/
theorem preNoise_eq_self (l : List Char) (h : noNoise l) : preNoise l = l := by
  induction l with
  | nil => rfl
  | cons c r ih =>
    have h0 : noiseAt (c :: r) = false := by simpa using h 0
    unfold preNoise
    rw [if_neg (by simp [h0])]
    congr 1
    exact ih (fun j => by simpa using h (j + 1))

/-- `rstripJunk l` is an initial segment of `l`. -/
theorem rstripJunk_isPre (l : List Char) : ∃ t, rstripJunk l ++ t = l := by
  have hs : l.reverse.dropWhile isJunk <:+ l.reverse := List.dropWhile_suffix isJunk
  obtain ⟨d, hd⟩ := hs
  refine ⟨d.reverse, ?_⟩
  unfold rstripJunk
  calc (l.reverse.dropWhile isJunk).reverse ++ d.reverse
      = (d ++ l.reverse.dropWhile isJunk).reverse := (List.reverse_append _ _).symm
    _ = l.reverse.reverse := by rw [hd]
    _ = l := List.reverse_reverse l

/-- Whitespace is trailing junk. -/
theorem isJunk_of_isPySpace (c : Char) (h : isPySpace c = true) : isJunk c = true := by
  unfold isJunk
  rw [h]
  rfl

/-- The post-processed prefix is a fixed point of the sanitizer. -/
theorem cleanNameL_fixed_of_noNoise (w : List Char) (hw : noNoise w) :
    cleanNameL (pyStrip (rstripJunk w)) = pyStrip (rstripJunk w) := by
  cases ha : (rstripJunk w).dropWhile isPySpace with
  | nil =>
    have hz : pyStrip (rstripJunk w) = [] := by
      unfold pyStrip lstripWs rstripWs
      rw [ha]
      rfl
    rw [hz]
    rfl
  | cons c cs =>
    -- a = c :: cs is the stripped value; first show pyStrip (rstripJunk w) = a
    obtain ⟨u, hu⟩ : (c :: cs : List Char) <:+ rstripJunk w := by
      rw [← ha]; exact List.dropWhile_suffix isPySpace
    -- last character of a = head of its reverse is not junk
    have hwrev : (rstripJunk w).reverse = w.reverse.dropWhile isJunk := by
      unfold rstripJunk
      rw [List.reverse_reverse]
    cases hra : (c :: cs : List Char).reverse with
    | nil => exact absurd hra (by simp)
    | cons y ys =>
      have hyjunk : isJunk y = false := by
        apply dropWhile_head_false isJunk w.reverse y (ys ++ u.reverse)
        rw [← hwrev, ← hu, List.reverse_append, hra]
        rfl
      have hyws : isPySpace y = false := by
        rw [Bool.eq_false_iff]
        intro hws
        rw [isJunk_of_isPySpace y hws] at hyjunk
        cases hyjunk
      have hcws : isPySpace c = false :=
        dropWhile_head_false isPySpace (rstripJunk w) c cs ha
      have hrstripWs : rstripWs (c :: cs) = c :: cs := by
        unfold rstripWs
        rw [hra, List.dropWhile_cons, if_neg (by simp [hyws]), ← hra,
          List.reverse_reverse]
      have hz : pyStrip (rstripJunk w) = c :: cs := by
        unfold pyStrip lstripWs
        rw [ha]
        exact hrstripWs
      rw [hz]
      -- now show the sanitizer fixes a = c :: cs
      have hnn : noNoise (c :: cs) := by
        obtain ⟨t2, ht2⟩ := rstripJunk_isPre w
        apply noNoise_infix u (c :: cs) t2
        have : u ++ ((c :: cs) ++ t2) = w := by
          rw [← List.append_assoc, hu, ht2]
        rw [this]
        exact hw
      have hpre : preNoise (c :: cs) = c :: cs := preNoise_eq_self _ hnn
      have hjunkfix : rstripJunk (c :: cs) = c :: cs := by
        unfold rstripJunk
        rw [hra, List.dropWhile_cons, if_neg (by simp [hyjunk]), ← hra,
          List.reverse_reverse]
      have hstripfix : pyStrip (c :: cs) = c :: cs := by
        unfold pyStrip lstripWs
        rw [List.dropWhile_cons, if_neg (by simp [hcws])]
        exact hrstripWs
      unfold cleanNameL
      rw [if_neg (by simp)]
      rw [hpre, hjunkfix, hstripfix]

/-- C10: the Name Sanitizer is idempotent. -/
theorem c10_clean_name_idempotent (x : String) :
    clean_name (clean_name x) = clean_name x := by
  unfold clean_name
  have hdata : (strOf (cleanNameL x.data)).data = cleanNameL x.data := rfl
  rw [hdata]
  congr 1
  by_cases hl : x.data.isEmpty = true
  · have hnil : x.data = [] := by
      cases hx : x.data
      · rfl
      · rw [hx] at hl; cases hl
    rw [hnil]
    rfl
  · have hstep : cleanNameL x.data = pyStrip (rstripJunk (preNoise x.data)) := by
      unfold cleanNameL
      rw [if_neg hl]
    rw [hstep]
    exact cleanNameL_fixed_of_noNoise (preNoise x.data) (noNoise_preNoise x.data)

/-- `preNoise` keeps exactly the part before the first match position. -/
theorem preNoise_eq_take (l : List Char) :
    ∀ i, (∀ j, j < i → noiseAt (l.drop j) = false) → noiseAt (l.drop i) = true →
      preNoise l = l.take i := by
  induction l with
  | nil =>
    intro i _ hmatch
    rw [List.drop_nil, noiseAt_nil] at hmatch
    cases hmatch
  | cons c r ih =>
    intro i hfirst hmatch
    cases i with
    | zero =>
      have h0 : noiseAt (c :: r) = true := by simpa using hmatch
      unfold preNoise
      rw [if_pos h0]
      rfl
    | succ n =>
      have h0 : noiseAt (c :: r) = false := by simpa using hfirst 0 (Nat.succ_pos n)
      unfold preNoise
      rw [if_neg (by simp [h0]), List.take_succ_cons]
      congr 1
      exact ih n (fun j hj => by simpa using hfirst (j + 1) (by omega))
        (by simpa using hmatch)

/-- C9 (counterexample): "JOHN DATE SMITH" contains the keyword `DATE`
preceded by whitespace, yet `clean_name` leaves it untouched (the code's
`DATE` alternative also requires a following `:` or `=`), so the text from
the keyword onward is not removed. -/
theorem c9_keyword_counterexample :
    hasKwAfterWs "JOHN DATE SMITH".data = true ∧
    clean_name "JOHN DATE SMITH" = "JOHN DATE SMITH" ∧
    clean_name "JOHN DATE SMITH" ≠ "JOHN" :=
  ⟨by decide, by decide, by decide⟩

/-- C9 (amended): `clean_name` truncates at the first position where
whitespace is followed by `DATE`/`DOB`/`ID`/`AGE` with a trailing `:`/`=`
(after optional spaces), or by `D.O.B`, `REF.`, `SAMPLE`, `REPORT` bare —
everything from that whitespace onward is removed, and the kept prefix is
then stripped of trailing whitespace, digit, colon, period, slash and
hyphen runs and of outer whitespace. -/
theorem c9_truncation (x : String) (i : Nat)
    (hfirst : ∀ j, j < i → noiseAt (x.data.drop j) = false)
    (hmatch : noiseAt (x.data.drop i) = true) :
    clean_name x = strOf (pyStrip (rstripJunk (x.data.take i))) := by
  have hne : x.data.isEmpty ≠ true := by
    intro hx
    have hnil : x.data = [] := by
      cases hd : x.data
      · rfl
      · rw [hd] at hx; cases hx
    rw [hnil, List.drop_nil, noiseAt_nil] at hmatch
    cases hmatch
  unfold clean_name cleanNameL
  rw [if_neg hne, preNoise_eq_take x.data i hfirst hmatch]

theorem c9_truncation_witness :
    clean_name c9Text = strOf (pyStrip (rstripJunk (c9Text.data.take 10))) :=
  c9_truncation c9Text 10 (by decide) (by decide)

end Medscan
